import Mathlib

/-!
Verification of the spelling-detection and correction pipeline of
`PDF_to_txt.py` (batch English spelling detection and correction tool).

The embedding models, from the source:
  * the word filter `_WORD_RE` (a Python `re.match` against
    `^[A-Za-z][A-Za-z'-]*$`, whose `$` also matches just before one
    trailing newline),
  * `analyze_spelling`, `correct_spelling` (with Python's
    `str.lower`, `str.capitalize`, `str.isupper` restricted to ASCII),
  * `decode_bytes_with_fallback` with a concrete UTF-8 decoder and a
    concrete latin-1 decoder, the two Korean codecs abstract,
  * the module-level batch loop (decode, analyze, dedup merge, correct,
    collect corrected files) and which result widgets it produces,
  * a second, exception-aware model of the same loop in the `Except`
    monad, faithful to the fact that the loop body has no handler.

External collaborators (the NLTK tokenizer, the pyspellchecker oracle,
the Python codecs for cp949/euc-kr and the ASCII-compatible encoders)
are passed as parameters or modelled from the spec where noted.
-/

/-! ### Characters

Python's `str.lower`, `str.capitalize`, `str.isupper` restricted to
ASCII coincide with `Char.toLower`, `Char.toUpper`, `Char.isUpper`
(all tokens the pipeline case-converts are accepted by `_WORD_RE`,
hence ASCII). -/

theorem char_toNat_ofNat {n : Nat} (h : n < 55296) : (Char.ofNat n).toNat = n := by
  have hv : n.isValidChar := Or.inl h
  simp only [Char.ofNat, hv, dite_true, Char.ofNatAux, Char.toNat]
  rfl

theorem char_isUpper_iff {c : Char} : c.isUpper = true ↔ 65 ≤ c.toNat ∧ c.toNat ≤ 90 := by
  simp [Char.isUpper, Char.toNat, UInt32.le_def, BitVec.le_def]
  rfl

theorem char_isLower_iff {c : Char} : c.isLower = true ↔ 97 ≤ c.toNat ∧ c.toNat ≤ 122 := by
  simp [Char.isLower, Char.toNat, UInt32.le_def, BitVec.le_def]
  rfl

theorem char_toLower_eq_of_not_upper {c : Char} (h : ¬ c.isUpper = true) : c.toLower = c := by
  rw [char_isUpper_iff] at h
  unfold Char.toLower
  rw [if_neg]
  intro hc
  exact h ⟨hc.1, hc.2⟩

theorem char_toNat_toLower_of_upper {c : Char} (h : c.isUpper = true) :
    c.toLower.toNat = c.toNat + 32 := by
  rw [char_isUpper_iff] at h
  unfold Char.toLower
  rw [if_pos ⟨h.1, h.2⟩]
  exact char_toNat_ofNat (by omega)

theorem char_toLower_toLower (c : Char) : c.toLower.toLower = c.toLower := by
  by_cases h : c.isUpper = true
  · apply char_toLower_eq_of_not_upper
    rw [char_isUpper_iff, char_toNat_toLower_of_upper h]
    rw [char_isUpper_iff] at h
    omega
  · rw [char_toLower_eq_of_not_upper h, char_toLower_eq_of_not_upper h]

theorem char_toUpper_eq_of_not_lower {c : Char} (h : ¬ c.isLower = true) : c.toUpper = c := by
  rw [char_isLower_iff] at h
  unfold Char.toUpper
  rw [if_neg]
  intro hc
  exact h ⟨hc.1, hc.2⟩

theorem char_toNat_toUpper_of_lower {c : Char} (h : c.isLower = true) :
    c.toUpper.toNat = c.toNat - 32 := by
  rw [char_isLower_iff] at h
  unfold Char.toUpper
  rw [if_pos ⟨h.1, h.2⟩]
  exact char_toNat_ofNat (by omega)

theorem char_isLower_toLower_of_alpha {c : Char} (h : c.isAlpha = true) :
    c.toLower.isLower = true := by
  rcases Bool.or_eq_true_iff.mp (by simpa [Char.isAlpha] using h) with hu | hl
  · rw [char_isLower_iff, char_toNat_toLower_of_upper hu]
    rw [char_isUpper_iff] at hu
    omega
  · rw [char_toLower_eq_of_not_upper]
    · exact hl
    · rw [char_isUpper_iff]
      rw [char_isLower_iff] at hl
      omega

theorem char_not_isUpper_toLower_of_alpha {c : Char} (h : c.isAlpha = true) :
    c.toLower.isUpper = false := by
  have hl := char_isLower_toLower_of_alpha h
  rw [char_isLower_iff] at hl
  rw [Bool.eq_false_iff]
  intro hu
  rw [char_isUpper_iff] at hu
  omega

theorem char_isUpper_toUpper_of_lower {c : Char} (h : c.isLower = true) :
    c.toUpper.isUpper = true := by
  rw [char_isUpper_iff, char_toNat_toUpper_of_lower h]
  rw [char_isLower_iff] at h
  omega

theorem char_isAlpha_of_upper {c : Char} (h : c.isUpper = true) : c.isAlpha = true := by
  simp [Char.isAlpha, h]

theorem char_isAlpha_of_lower {c : Char} (h : c.isLower = true) : c.isAlpha = true := by
  simp [Char.isAlpha, h]

theorem char_toNat_inj {a b : Char} (h : a.toNat = b.toNat) : a = b := by
  have := congrArg Char.ofNat h
  rwa [Char.ofNat_toNat, Char.ofNat_toNat] at this

theorem char_toLower_toUpper_toLower_of_alpha {c : Char} (h : c.isAlpha = true) :
    c.toLower.toUpper.toLower = c.toLower := by
  have hl := char_isLower_toLower_of_alpha h
  have h1 := char_toNat_toUpper_of_lower hl
  have hu : c.toLower.toUpper.isUpper = true := char_isUpper_toUpper_of_lower hl
  have h2 := char_toNat_toLower_of_upper hu
  apply char_toNat_inj
  rw [h2, h1]
  rw [char_isLower_iff] at hl
  omega

theorem char_isAlpha_toLower {c : Char} : c.toLower.isAlpha = c.isAlpha := by
  by_cases h : c.isAlpha = true
  · rw [h, char_isAlpha_of_lower (char_isLower_toLower_of_alpha h)]
  · rw [char_toLower_eq_of_not_upper]
    intro hu
    exact h (char_isAlpha_of_upper hu)

theorem char_isAlpha_toUpper_of_alpha {c : Char} (h : c.isAlpha = true) :
    c.toUpper.isAlpha = true := by
  by_cases hl : c.isLower = true
  · exact char_isAlpha_of_upper (char_isUpper_toUpper_of_lower hl)
  · rw [char_toUpper_eq_of_not_lower hl]
    exact h

/-! ### Python string operations on ASCII -/

/-- Python `str.lower()` (ASCII range, the only one the pipeline hits:
every case-converted token was accepted by `_WORD_RE`). -/
def pyLower (s : String) : String := ⟨s.data.map Char.toLower⟩

/-- Python `str.capitalize()`: first character upper-cased, every
remaining character lower-cased. -/
def pyCapitalize (s : String) : String :=
  match s.data with
  | [] => ⟨[]⟩
  | c :: cs => ⟨c.toUpper :: cs.map Char.toLower⟩

/-- Python `str.isupper()`: at least one cased character and no cased
character lower-case (ASCII: cased = letter). -/
def pyIsUpper (s : String) : Bool :=
  s.data.any Char.isAlpha && s.data.all fun c => !c.isAlpha || c.isUpper

/-- Python `tok[:1].isupper()`. -/
def firstIsUpper (s : String) : Bool :=
  match s.data with
  | [] => false
  | c :: _ => c.isUpper

/-- Python `x or tok` for `x` an optional string: `None` and the empty
string are falsy. -/
def orElsePy (o : Option String) (tok : String) : String :=
  match o with
  | none => tok
  | some s => if s.data = [] then tok else s

/-! ### Word Filter: `_WORD_RE = re.compile(r"^[A-Za-z][A-Za-z'-]*$")`

`_WORD_RE.match(w)` is truthy iff the whole token matches, except that
Python's `$` (without `re.MULTILINE`) also matches just before a single
newline at the end of the string. -/

/-- A character allowed after the first: ASCII letter, apostrophe or
hyphen (`[A-Za-z'-]`). -/
def isWordTailChar (c : Char) : Bool := c.isAlpha || c = '\'' || c = '-'

/-- The body of the pattern: `[A-Za-z][A-Za-z'-]*` against the whole list. -/
def isWordCore : List Char → Bool
  | [] => false
  | c :: cs => c.isAlpha && cs.all isWordTailChar

/-- `bool(_WORD_RE.match(w))`: the pattern matches the token, or the
token with one trailing newline stripped (Python `$` semantics). -/
def is_word (s : String) : Bool :=
  isWordCore s.data || (s.data.getLast? == some '\n' && isWordCore s.data.dropLast)

/-- The word shape exactly as the spec states it: starts with an ASCII
letter and consists only of ASCII letters, apostrophes, and hyphens
thereafter (no trailing-newline allowance). -/
def wordShapeSpec (s : String) : Bool := isWordCore s.data

/-- A digit, for the spec's classification of rejected tokens. -/
def isDigitCh (c : Char) : Bool := c.isDigit

/-- A symbol, for the spec's classification of rejected tokens: a
character that is neither an ASCII letter nor a digit. -/
def isSymbolCh (c : Char) : Bool := !(c.isAlpha || c.isDigit)

/-! ### The dictionary oracle

Modelled from the spec: the pyspellchecker collaborator is opaque; the
spec gives it the contract `unknown(words) -> set` (the subset of the
words not known to the dictionary) and `correction(word) -> string|absent`. -/

/-- Modelled from the spec: the dictionary oracle collaborator.
`known w` is dictionary membership of a (lower-cased) word; `correction`
returns one best-ranked correction or nothing. -/
structure SpellChecker where
  known : String → Bool
  correction : String → Option String

/-- Modelled from the spec: `spell_checker.unknown(words)` — the subset
of the given words the dictionary does not contain, as a set
(deduplicated). -/
def unknownWords (sp : SpellChecker) (ws : List String) : List String :=
  (ws.filter fun w => !sp.known w).dedup

/-! ### Spelling Analyzer: `analyze_spelling` (source lines 34-40) -/

/-- `analyze_spelling(text, spell_checker)`: tokenize, keep word-shaped
tokens, lower-case them, ask the oracle for the unknown ones, and pair
each unknown word with the oracle's correction. The tokenizer is the
external NLTK collaborator, passed as a parameter. Returns the
correction mapping (an insertion-ordered dict) and the number of
misspelled words. -/
def analyze_spelling (tokenize : String → List String) (sp : SpellChecker)
    (text : String) : List (String × Option String) × Nat :=
  ((unknownWords sp (((tokenize text).filter fun w => is_word w).map pyLower)).map
      fun w => (w, sp.correction w),
    (unknownWords sp (((tokenize text).filter fun w => is_word w).map pyLower)).length)

/-! ### Corrector: `correct_spelling` (source lines 43-67) -/

/-- The per-token branch of `correct_spelling`'s loop: non-word tokens
verbatim, all-uppercase tokens verbatim, otherwise the oracle's
correction of the lower-cased token (falling back to the token), with
Python `str.capitalize()` applied when the token's first character was
upper-case. -/
def correctToken (sp : SpellChecker) (tok : String) : String :=
  if is_word tok then
    if pyIsUpper tok then tok
    else
      let corr := orElsePy (sp.correction (pyLower tok)) tok
      if firstIsUpper tok then pyCapitalize corr else corr
  else tok

/-- Python `str.replace(old, new)` on character lists: leftmost,
non-overlapping, the pattern `o :: os` non-empty. Structural recursion
on a fuel argument (one unit per consumed character suffices). -/
def replaceFuel (news : List Char) (o : Char) (os : List Char) : Nat → List Char → List Char
  | _, [] => []
  | 0, l => l
  | Nat.succ fuel, c :: rest =>
    if (o :: os).isPrefixOf (c :: rest) then
      news ++ replaceFuel news o os fuel (rest.drop os.length)
    else
      c :: replaceFuel news o os fuel rest

/-- Python `s.replace(old, new)` for a non-empty `old` (the source only
replaces two-character patterns). -/
def pyReplace (s old new : String) : String :=
  match old.data with
  | [] => s
  | o :: os => ⟨replaceFuel new.data o os s.data.length s.data⟩

/-- `" ".join(out)`. -/
def joinSpace (out : List String) : String :=
  ⟨List.intercalate [' '] (out.map String.data)⟩

/-- The punctuation-spacing fixup of `correct_spelling`: for each mark
in `, . ! ? : ;` remove the space immediately before it. -/
def fixPunct (s : String) : String :=
  [",", ".", "!", "?", ":", ";"].foldl (fun acc p => pyReplace acc (" " ++ p) p) s

/-- `correct_spelling(text, spell_checker)`: map the per-token branch
over the tokenization, join with single spaces, fix punctuation
spacing. -/
def correct_spelling (tokenize : String → List String) (sp : SpellChecker)
    (text : String) : String :=
  fixPunct (joinSpace ((tokenize text).map (correctToken sp)))

/-! ### A concrete tokenizer for witnesses

The real tokenizer is the external NLTK collaborator; the pipeline
functions take it as a parameter. For concrete instances we use a plain
whitespace splitter. -/

/-- Split a character list on spaces (empty pieces dropped by `tokWS`). -/
def splitSpaces : List Char → List (List Char)
  | [] => [[]]
  | c :: rest =>
    match splitSpaces rest with
    | [] => if c = ' ' then [[], []] else [[c]]
    | w :: ws => if c = ' ' then [] :: w :: ws else (c :: w) :: ws

/-- A concrete whitespace tokenizer used to instantiate the external
tokenizer parameter in witnesses. -/
def tokWS (s : String) : List String :=
  (splitSpaces s.data).filterMap fun w => if w = [] then none else some ⟨w⟩

/-! ### Text Decoder: `decode_bytes_with_fallback` (source lines 70-78) -/

/-- A byte of the uploaded file contents. -/
abbrev Byte := Fin 256

/-- A UTF-8 continuation byte (`0x80`-`0xBF`). -/
def isContByte (b : Byte) : Bool := 128 ≤ b.val && b.val ≤ 191

/-- Strict UTF-8 decoding (the table of Python's `bytes.decode("utf-8")`:
lead-byte ranges with the restricted first continuation bytes that
exclude overlong forms and surrogates). Structural recursion on a fuel
argument; one unit of fuel per decoded character suffices. -/
def utf8Fuel : Nat → List Byte → Option (List Char)
  | _, [] => some []
  | 0, _ :: _ => none
  | Nat.succ f, b :: rest =>
    let n := b.val
    if n < 128 then
      (utf8Fuel f rest).map fun cs => Char.ofNat n :: cs
    else if 194 ≤ n && n ≤ 223 then
      match rest with
      | c1 :: rest1 =>
        if isContByte c1 then
          (utf8Fuel f rest1).map fun cs =>
            Char.ofNat ((n - 192) * 64 + (c1.val - 128)) :: cs
        else none
      | [] => none
    else if 224 ≤ n && n ≤ 239 then
      match rest with
      | c1 :: c2 :: rest2 =>
        let lo1 := if n = 224 then 160 else 128
        let hi1 := if n = 237 then 159 else 191
        if (lo1 ≤ c1.val && c1.val ≤ hi1) && isContByte c2 then
          (utf8Fuel f rest2).map fun cs =>
            Char.ofNat ((n - 224) * 4096 + (c1.val - 128) * 64 + (c2.val - 128)) :: cs
        else none
      | _ => none
    else if 240 ≤ n && n ≤ 244 then
      match rest with
      | c1 :: c2 :: c3 :: rest3 =>
        let lo1 := if n = 240 then 144 else 128
        let hi1 := if n = 244 then 143 else 191
        if (lo1 ≤ c1.val && c1.val ≤ hi1) && isContByte c2 && isContByte c3 then
          (utf8Fuel f rest3).map fun cs =>
            Char.ofNat ((n - 240) * 262144 + (c1.val - 128) * 4096 +
              (c2.val - 128) * 64 + (c3.val - 128)) :: cs
        else none
      | _ => none
    else none

/-- `data.decode("utf-8")`, strict: `some` on success, `none` where
Python raises `UnicodeDecodeError`. -/
def utf8Decode (data : List Byte) : Option String :=
  (utf8Fuel data.length data).map fun cs => ⟨cs⟩

/-- The latin-1 character of a byte: code point equal to the byte value
(the latin-1 table is total on bytes). -/
def latin1Char (b : Byte) : Char := Char.ofNat b.val

/-- `data.decode("latin-1")`, strict: every byte is a valid latin-1
character, so strict decoding succeeds on every byte sequence. -/
def latin1Decode (data : List Byte) : Option String :=
  some ⟨data.map latin1Char⟩

/-- `data.decode("latin-1", errors="replace")`: latin-1 has no invalid
bytes, so nothing is ever replaced and the result is the plain latin-1
string. -/
def latin1DecodeReplace (data : List Byte) : String :=
  ⟨data.map latin1Char⟩

/-- `decode_bytes_with_fallback(data)`: try `utf-8`, `cp949`, `euc-kr`,
`latin-1` strictly in that order, first success wins; as a last resort
decode latin-1 with `errors="replace"`. The two Korean codecs are
Python-stdlib table codecs and are passed as parameters. -/
def decode_bytes_with_fallback (cp949 euckr : List Byte → Option String)
    (data : List Byte) : String :=
  match utf8Decode data with
  | some s => s
  | none =>
    match cp949 data with
    | some s => s
    | none =>
      match euckr data with
      | some s => s
      | none =>
        match latin1Decode data with
        | some s => s
        | none => latin1DecodeReplace data

/-- The strict part of the decoder only: the first of the four strict
codec attempts that succeeds, `none` if all fail (the lossy fallback
line removed). -/
def decodeStrictChain (cp949 euckr : List Byte → Option String)
    (data : List Byte) : Option String :=
  match utf8Decode data with
  | some s => some s
  | none =>
    match cp949 data with
    | some s => some s
    | none =>
      match euckr data with
      | some s => some s
      | none => latin1Decode data

/-- The four encodings the decoder supports. -/
inductive PyEncoding
  | utf8
  | cp949
  | euckr
  | latin1
deriving DecidableEq

/-- Modelled from the spec: Python's `s.encode(enc)` for the four
supported codecs, on pure-ASCII strings. All four encodings are
ASCII-compatible, so a pure-ASCII string encodes in every one of them
to the byte sequence of its characters' code points. (Meaningful only
under the pure-ASCII hypothesis it is used with.) -/
def encodeAscii (_enc : PyEncoding) (s : String) : List Byte :=
  s.data.map fun c => ⟨c.toNat % 256, Nat.mod_lt _ (by omega)⟩

/-! ### Batch Orchestrator (source lines 110-196) -/

/-- The accumulated state of the module-level batch loop: the
deduplicated error table `dedup`, the `corrected_files` dict
(`filename -> corrected text`, insertion-ordered), and
`total_miss_count`. -/
structure BatchResult where
  dedup : List (String × Option String)
  corrected_files : List (String × String)
  total_miss_count : Nat
deriving DecidableEq

/-- The dedup merge of source lines 136-138: for each `(w, c)` of this
file's errors in order, insert `w ↦ c` only if `w` has no entry yet. -/
def mergeDedup (d : List (String × Option String))
    (errors : List (String × Option String)) : List (String × Option String) :=
  errors.foldl (fun d wc => if (d.lookup wc.1).isSome then d else d ++ [wc]) d

/-- Python dict assignment `m[k] = v`: overwrite in place if the key
exists, else append. -/
def dictInsert (m : List (String × String)) (k v : String) : List (String × String) :=
  if (m.lookup k).isSome then
    m.map fun p => if p.1 = k then (k, v) else p
  else
    m ++ [(k, v)]

/-- One iteration of the batch loop (source lines 125-146): decode the
file's bytes, analyze, merge this file's errors into `dedup`, correct,
and store the corrected text under the file's name. -/
def processFile (tokenize : String → List String)
    (cp949 euckr : List Byte → Option String) (sp : SpellChecker)
    (acc : BatchResult) (file : String × List Byte) : BatchResult :=
  { dedup := mergeDedup acc.dedup
      (analyze_spelling tokenize sp (decode_bytes_with_fallback cp949 euckr file.2)).1
    corrected_files := dictInsert acc.corrected_files file.1
      (correct_spelling tokenize sp (decode_bytes_with_fallback cp949 euckr file.2))
    total_miss_count := acc.total_miss_count +
      (analyze_spelling tokenize sp (decode_bytes_with_fallback cp949 euckr file.2)).2 }

/-- The whole batch loop over the uploaded files in upload order,
starting from empty state. -/
def processBatch (tokenize : String → List String)
    (cp949 euckr : List Byte → Option String) (sp : SpellChecker)
    (files : List (String × List Byte)) : BatchResult :=
  files.foldl (processFile tokenize cp949 euckr sp) ⟨[], [], 0⟩

/-- Source line 155: the unique-error table is rendered iff `dedup` is
non-empty. -/
def showsErrorTable (r : BatchResult) : Bool := !r.dedup.isEmpty

/-- Source lines 163-177: the CSV download button is rendered iff
`dedup` is non-empty (same guard as the table). -/
def showsCSV (r : BatchResult) : Bool := !r.dedup.isEmpty

/-- Source lines 180-196: the ZIP download button is rendered iff
`corrected_files` is non-empty. -/
def showsZip (r : BatchResult) : Bool := !r.corrected_files.isEmpty

/-! ### Exception-aware model of the batch loop

The loop body (source lines 125-146) contains no `try`/`except`: an
exception raised by the oracle (or anything else inside one file's
processing) propagates out of the `for` and aborts the whole script
run, so none of the result widgets (lines 148-196) are rendered. We
model this with the same pipeline in the `Except` monad, the oracle's
two methods now fallible. -/

/-- The dictionary oracle with fallible methods: a call either returns
or raises (`Except.error`). -/
structure SpellCheckerE (ε : Type) where
  unknownE : List String → Except ε (List String)
  correctionE : String → Except ε (Option String)

/-- `analyze_spelling` with a fallible oracle: any raise propagates. -/
def analyze_spellingE {ε : Type} (tokenize : String → List String)
    (sp : SpellCheckerE ε) (text : String) :
    Except ε (List (String × Option String) × Nat) := do
  let words := tokenize text
  let tokens := words.filter fun w => is_word w
  let lowers := tokens.map pyLower
  let misspelled ← sp.unknownE lowers
  let corrections ← misspelled.mapM fun w => do
    let c ← sp.correctionE w
    pure (w, c)
  pure (corrections, misspelled.length)

/-- The per-token branch of `correct_spelling` with a fallible oracle. -/
def correctTokenE {ε : Type} (sp : SpellCheckerE ε) (tok : String) :
    Except ε String :=
  if is_word tok then
    if pyIsUpper tok then pure tok
    else do
      let o ← sp.correctionE (pyLower tok)
      let corr := orElsePy o tok
      pure (if firstIsUpper tok then pyCapitalize corr else corr)
  else pure tok

/-- `correct_spelling` with a fallible oracle. -/
def correct_spellingE {ε : Type} (tokenize : String → List String)
    (sp : SpellCheckerE ε) (text : String) : Except ε String := do
  let out ← (tokenize text).mapM (correctTokenE sp)
  pure (fixPunct (joinSpace out))

/-- One iteration of the batch loop with a fallible oracle. -/
def processFileE {ε : Type} (tokenize : String → List String)
    (cp949 euckr : List Byte → Option String) (sp : SpellCheckerE ε)
    (acc : BatchResult) (file : String × List Byte) : Except ε BatchResult := do
  let analyzed ← analyze_spellingE tokenize sp
    (decode_bytes_with_fallback cp949 euckr file.2)
  let fixed ← correct_spellingE tokenize sp
    (decode_bytes_with_fallback cp949 euckr file.2)
  pure
    { dedup := mergeDedup acc.dedup analyzed.1
      corrected_files := dictInsert acc.corrected_files file.1 fixed
      total_miss_count := acc.total_miss_count + analyzed.2 }

/-- The batch loop with a fallible oracle: the first raise anywhere
aborts the whole batch (there is no handler in the loop), yielding
`Except.error` and no `BatchResult` at all. -/
def processBatchE {ε : Type} (tokenize : String → List String)
    (cp949 euckr : List Byte → Option String) (sp : SpellCheckerE ε)
    (files : List (String × List Byte)) : Except ε BatchResult :=
  files.foldlM (processFileE tokenize cp949 euckr sp) ⟨[], [], 0⟩

/-! ## Claims -/

/-! ### C5 — the Word Filter -/

/-- C5 (counterexample): the claim's iff fails on the token `"abc\n"`:
Python's `$` matches just before a trailing newline, so
`_WORD_RE.match("abc\n")` is truthy although the token's last character
is neither a letter, an apostrophe nor a hyphen. -/
theorem c5_counterexample :
    is_word "abc\n" = true ∧ wordShapeSpec "abc\n" = false := by
  decide

/-- C5 (amended): the Word Filter accepts a token iff it matches the
spec's word shape, or it is a word-shaped token followed by one
trailing newline; and every rejected token is empty, contains a digit,
contains a symbol (a character that is neither letter nor digit), or
has a leading non-letter. -/
theorem c5_word_filter_characterization (t : String) :
    (is_word t = true ↔
      wordShapeSpec t = true ∨
        ∃ u : List Char, t.data = u ++ ['\n'] ∧ isWordCore u = true) ∧
    (is_word t = false →
      t = "" ∨ (∃ c ∈ t.data, isDigitCh c = true) ∨
        (∃ c ∈ t.data, isSymbolCh c = true) ∨
        ∃ c, t.data.head? = some c ∧ c.isAlpha = false) := by
  constructor
  · simp only [is_word, wordShapeSpec, Bool.or_eq_true, Bool.and_eq_true, beq_iff_eq]
    constructor
    · rintro (hc | ⟨hl, hd⟩)
      · exact Or.inl hc
      · rcases List.eq_nil_or_concat' t.data with hnil | ⟨u, a, hu⟩
        · rw [hnil] at hl
          simp at hl
        · rw [hu, List.getLast?_concat] at hl
          rw [hu, List.dropLast_concat] at hd
          refine Or.inr ⟨u, ?_, hd⟩
          rw [hu, Option.some_inj.mp hl]
    · rintro (hc | ⟨u, hu, hw⟩)
      · exact Or.inl hc
      · right
        rw [hu, List.getLast?_concat, List.dropLast_concat]
        exact ⟨rfl, hw⟩
  · intro hrej
    rcases hd : t.data with _ | ⟨c, cs⟩
    · left
      exact String.ext (hd.trans rfl)
    · by_cases hca : c.isAlpha = true
      · have hcore : isWordCore t.data = false := by
          cases hcw : isWordCore t.data
          · rfl
          · rw [is_word, hcw] at hrej
            simp at hrej
        rw [hd] at hcore
        simp only [isWordCore, hca, Bool.true_and, List.all_eq_false] at hcore
        obtain ⟨d, hdmem, hdt⟩ := hcore
        rw [Bool.not_eq_true] at hdt
        simp only [isWordTailChar, Bool.or_eq_false_iff, decide_eq_false_iff_not] at hdt
        by_cases hdd : d.isDigit = true
        · right; left
          exact ⟨d, List.mem_cons_of_mem c hdmem, hdd⟩
        · right; right; left
          refine ⟨d, List.mem_cons_of_mem c hdmem, ?_⟩
          simp only [Bool.not_eq_true] at hdd
          simp [isSymbolCh, hdt.1.1, hdd]
      · right; right; right
        refine ⟨c, rfl, ?_⟩
        rw [Bool.not_eq_true] at hca
        exact hca

/-- C5 witness: the rejected token `"x9"` contains a digit. -/
theorem c5_word_filter_characterization_witness :
    is_word "x9" = false ∧
      ("x9" = "" ∨ (∃ c ∈ "x9".data, isDigitCh c = true) ∨
        (∃ c ∈ "x9".data, isSymbolCh c = true) ∨
        ∃ c, "x9".data.head? = some c ∧ c.isAlpha = false) :=
  ⟨by decide, (c5_word_filter_characterization "x9").2 (by decide)⟩

/-! ### C6 — unknown words are never dropped from the correction map -/

/-- C6: every word the oracle reports as unknown (on this text's
lower-cased word-shaped tokens) appears as a key of the correction
mapping `analyze_spelling` returns, whether or not the oracle offers a
correction for it. -/
theorem c6_analyze_spelling_keeps_unknown_keys (tokenize : String → List String)
    (sp : SpellChecker) (text : String) (w : String)
    (h : w ∈ unknownWords sp (((tokenize text).filter fun t => is_word t).map pyLower)) :
    w ∈ (analyze_spelling tokenize sp text).1.map Prod.fst := by
  unfold analyze_spelling
  simp only [List.map_map]
  simpa using h

/-- C6 witness: with an oracle that knows nothing and suggests nothing,
the unknown word `"tihs"` still appears as a key. -/
theorem c6_analyze_spelling_keeps_unknown_keys_witness :
    "tihs" ∈ unknownWords ⟨fun _ => false, fun _ => none⟩
        (((tokWS "tihs").filter fun t => is_word t).map pyLower) ∧
      "tihs" ∈ (analyze_spelling tokWS ⟨fun _ => false, fun _ => none⟩ "tihs").1.map Prod.fst :=
  ⟨by decide,
    c6_analyze_spelling_keeps_unknown_keys tokWS ⟨fun _ => false, fun _ => none⟩ "tihs" "tihs"
      (by decide)⟩

/-! ### C2 — the all-uppercase token "NASA" -/

/-- C2: for the input `"NASA is cool"` (tokenized by the external
tokenizer into its three words) and any dictionary oracle — including
one for which `"nasa"` is absent — the token `"NASA"` is all-uppercase,
passes through the Corrector's token loop unchanged, and the string
`"NASA"` does not appear in the Spelling Analyzer's unknown-word set
(whose members are the lower-cased candidate words). -/
theorem c2_nasa_unchanged (tokenize : String → List String) (sp : SpellChecker)
    (h : tokenize "NASA is cool" = ["NASA", "is", "cool"]) :
    pyIsUpper "NASA" = true ∧
      (tokenize "NASA is cool").map (correctToken sp) =
        "NASA" :: ["is", "cool"].map (correctToken sp) ∧
      "NASA" ∉ (analyze_spelling tokenize sp "NASA is cool").1.map Prod.fst := by
  refine ⟨by decide, ?_, ?_⟩
  · rw [h]
    simp only [List.map_cons]
    have : correctToken sp "NASA" = "NASA" := by
      unfold correctToken
      rw [if_pos (by decide), if_pos (by decide)]
    rw [this]
  · intro hmem
    unfold analyze_spelling at hmem
    simp only [List.map_map] at hmem
    have hmem' : "NASA" ∈ unknownWords sp
        (((tokenize "NASA is cool").filter fun t => is_word t).map pyLower) := by
      simpa using hmem
    have : "NASA" ∈ ((tokenize "NASA is cool").filter fun t => is_word t).map pyLower := by
      unfold unknownWords at hmem'
      exact List.mem_of_mem_filter (List.mem_dedup.mp hmem')
    rw [h] at this
    exact absurd this (by decide)

/-- C2 witness: a concrete whitespace tokenizer and an oracle whose
dictionary is empty (so `"nasa"` is absent). -/
theorem c2_nasa_unchanged_witness :
    pyIsUpper "NASA" = true ∧
      (tokWS "NASA is cool").map (correctToken ⟨fun _ => false, fun _ => none⟩) =
        "NASA" :: ["is", "cool"].map (correctToken ⟨fun _ => false, fun _ => none⟩) ∧
      "NASA" ∉ (analyze_spelling tokWS ⟨fun _ => false, fun _ => none⟩ "NASA is cool").1.map
          Prod.fst :=
  c2_nasa_unchanged tokWS ⟨fun _ => false, fun _ => none⟩ (by decide)

/-! ### C4 — capitalization of the chosen replacement -/

/-- C4 (counterexample): the claim says the Corrector upper-cases only
the first character of the chosen replacement, leaving every other
character unchanged. With an oracle that offers no correction, the
replacement for `"McDonald"` is the token itself, yet the Corrector
produces `"Mcdonald"`: the interior `D` was lower-cased, not left
unchanged. -/
theorem c4_counterexample :
    is_word "McDonald" = true ∧ pyIsUpper "McDonald" = false ∧
      firstIsUpper "McDonald" = true ∧
      orElsePy ((⟨fun _ => false, fun _ => none⟩ : SpellChecker).correction
        (pyLower "McDonald")) "McDonald" = "McDonald" ∧
      correctToken ⟨fun _ => false, fun _ => none⟩ "McDonald" = "Mcdonald" ∧
      ("Mcdonald" : String) ≠ "McDonald" := by
  decide

/-- C4 (amended): for a word-shaped, not-all-uppercase token whose
first character is upper-case, the Corrector applies Python
`str.capitalize` to the chosen replacement (the oracle's correction of
the lower-cased token, or the token itself if none): the first
character of the result is the replacement's first character
upper-cased, and every remaining character is the corresponding
replacement character lower-cased. -/
theorem c4_correctToken_capitalizes (sp : SpellChecker) (tok : String)
    (hw : is_word tok = true) (hu : pyIsUpper tok = false) (hf : firstIsUpper tok = true) :
    correctToken sp tok = pyCapitalize (orElsePy (sp.correction (pyLower tok)) tok) ∧
      (correctToken sp tok).data.head? =
        (orElsePy (sp.correction (pyLower tok)) tok).data.head?.map Char.toUpper ∧
      (correctToken sp tok).data.tail =
        (orElsePy (sp.correction (pyLower tok)) tok).data.tail.map Char.toLower := by
  have h1 : correctToken sp tok = pyCapitalize (orElsePy (sp.correction (pyLower tok)) tok) := by
    unfold correctToken
    rw [if_pos hw, if_neg (by rw [hu]; exact Bool.false_ne_true), if_pos hf]
  refine ⟨h1, ?_, ?_⟩ <;> rw [h1] <;> unfold pyCapitalize <;>
    rcases hr : (orElsePy (sp.correction (pyLower tok)) tok).data with _ | ⟨c, cs⟩ <;> simp

/-- C4 witness: the oracle corrects `"foo"` to `"aBc"`; the Corrector
emits `pyCapitalize "aBc" = "Abc"` for the token `"Foo"`. -/
theorem c4_correctToken_capitalizes_witness :
    correctToken ⟨fun _ => false, fun _ => some "aBc"⟩ "Foo" =
        pyCapitalize (orElsePy ((⟨fun _ => false, fun _ => some "aBc"⟩ : SpellChecker).correction
          (pyLower "Foo")) "Foo") ∧
      (correctToken ⟨fun _ => false, fun _ => some "aBc"⟩ "Foo").data.head? =
        (orElsePy ((⟨fun _ => false, fun _ => some "aBc"⟩ : SpellChecker).correction
          (pyLower "Foo")) "Foo").data.head?.map Char.toUpper ∧
      (correctToken ⟨fun _ => false, fun _ => some "aBc"⟩ "Foo").data.tail =
        (orElsePy ((⟨fun _ => false, fun _ => some "aBc"⟩ : SpellChecker).correction
          (pyLower "Foo")) "Foo").data.tail.map Char.toLower :=
  c4_correctToken_capitalizes ⟨fun _ => false, fun _ => some "aBc"⟩ "Foo"
    (by decide) (by decide) (by decide)

/-! ### C7 — first-file-wins deduplication -/

theorem lookup_append_of_some {α : Type} [BEq α] {l : List (α × β)} {l2 : List (α × β)}
    {w : α} {c : β} (h : l.lookup w = some c) : (l ++ l2).lookup w = some c := by
  induction l with
  | nil => simp [List.lookup] at h
  | cons p rest ih =>
    rw [List.cons_append]
    unfold List.lookup at h ⊢
    cases hb : w == p.1 with
    | true =>
      rw [hb] at h
      exact h
    | false =>
      rw [hb] at h
      exact ih h

theorem lookup_mergeDedup_of_some {d : List (String × Option String)}
    {errors : List (String × Option String)} {w : String} {c : Option String}
    (h : d.lookup w = some c) : (mergeDedup d errors).lookup w = some c := by
  induction errors generalizing d with
  | nil => exact h
  | cons wc rest ih =>
    unfold mergeDedup
    rw [List.foldl_cons]
    apply ih
    by_cases hl : (d.lookup wc.1).isSome = true
    · rw [if_pos hl]
      exact h
    · rw [if_neg hl]
      exact lookup_append_of_some h

theorem lookup_dedup_processBatch_of_some (tokenize : String → List String)
    (cp949 euckr : List Byte → Option String) (sp : SpellChecker)
    (files : List (String × List Byte)) (acc : BatchResult) {w : String} {c : Option String}
    (h : acc.dedup.lookup w = some c) :
    ((files.foldl (processFile tokenize cp949 euckr sp) acc).dedup.lookup w = some c) := by
  induction files generalizing acc with
  | nil => exact h
  | cons f rest ih =>
    rw [List.foldl_cons]
    exact ih _ (lookup_mergeDedup_of_some h)

/-- C7: once a lower-cased unknown word has received an entry in the
global deduplicated mapping, processing any further files leaves that
entry unchanged — the correction recorded by the earliest file wins. -/
theorem c7_first_file_wins (tokenize : String → List String)
    (cp949 euckr : List Byte → Option String) (sp : SpellChecker)
    (files1 files2 : List (String × List Byte)) (w : String) (c : Option String)
    (h : (processBatch tokenize cp949 euckr sp files1).dedup.lookup w = some c) :
    (processBatch tokenize cp949 euckr sp (files1 ++ files2)).dedup.lookup w = some c := by
  unfold processBatch at h ⊢
  rw [List.foldl_append]
  exact lookup_dedup_processBatch_of_some tokenize cp949 euckr sp files2 _ h

/-- C7 witness: the word `"qq"` gets the correction `"quite"` from the
first file and keeps it after a second file containing the same word is
merged. -/
theorem c7_first_file_wins_witness :
    (processBatch tokWS (fun _ => none) (fun _ => none) ⟨fun _ => false, fun _ => some "quite"⟩
        [("a.txt", encodeAscii PyEncoding.utf8 "qq")]).dedup.lookup "qq" = some (some "quite") ∧
      (processBatch tokWS (fun _ => none) (fun _ => none) ⟨fun _ => false, fun _ => some "quite"⟩
        ([("a.txt", encodeAscii PyEncoding.utf8 "qq")] ++
          [("b.txt", encodeAscii PyEncoding.utf8 "qq")])).dedup.lookup "qq" =
        some (some "quite") :=
  ⟨by decide,
    c7_first_file_wins tokWS (fun _ => none) (fun _ => none)
      ⟨fun _ => false, fun _ => some "quite"⟩
      [("a.txt", encodeAscii PyEncoding.utf8 "qq")]
      [("b.txt", encodeAscii PyEncoding.utf8 "qq")] "qq" (some "quite") (by decide)⟩

/-! ### C1 — zero findings and the result widgets -/

/-- C1 (counterexample): a one-file batch with zero unknown words. The
unique-error table and the CSV are indeed not produced, but the ZIP
download of corrected texts *is* produced — `corrected_files` is
non-empty whenever at least one file was processed, regardless of
findings. -/
theorem c1_counterexample :
    (processBatch tokWS (fun _ => none) (fun _ => none) ⟨fun _ => true, fun w => some w⟩
        [("a.txt", encodeAscii PyEncoding.utf8 "hello")]).total_miss_count = 0 ∧
      showsZip (processBatch tokWS (fun _ => none) (fun _ => none)
        ⟨fun _ => true, fun w => some w⟩
        [("a.txt", encodeAscii PyEncoding.utf8 "hello")]) = true := by
  decide

theorem total_miss_count_le_foldl (tokenize : String → List String)
    (cp949 euckr : List Byte → Option String) (sp : SpellChecker)
    (files : List (String × List Byte)) (acc : BatchResult) :
    acc.total_miss_count ≤
      (files.foldl (processFile tokenize cp949 euckr sp) acc).total_miss_count := by
  induction files generalizing acc with
  | nil => exact Nat.le_refl _
  | cons f rest ih =>
    rw [List.foldl_cons]
    refine Nat.le_trans ?_ (ih (processFile tokenize cp949 euckr sp acc f))
    exact Nat.le_add_right _ _

theorem dedup_eq_of_total_zero (tokenize : String → List String)
    (cp949 euckr : List Byte → Option String) (sp : SpellChecker)
    (files : List (String × List Byte)) (acc : BatchResult)
    (h : (files.foldl (processFile tokenize cp949 euckr sp) acc).total_miss_count = 0) :
    (files.foldl (processFile tokenize cp949 euckr sp) acc).dedup = acc.dedup := by
  induction files generalizing acc with
  | nil => rfl
  | cons f rest ih =>
    rw [List.foldl_cons] at h ⊢
    have hstep : (processFile tokenize cp949 euckr sp acc f).total_miss_count = 0 :=
      Nat.eq_zero_of_le_zero (h ▸ total_miss_count_le_foldl tokenize cp949 euckr sp rest _)
    have hmiss :
        (analyze_spelling tokenize sp
          (decode_bytes_with_fallback cp949 euckr f.2)).2 = 0 := by
      have : (processFile tokenize cp949 euckr sp acc f).total_miss_count =
          acc.total_miss_count +
            (analyze_spelling tokenize sp
              (decode_bytes_with_fallback cp949 euckr f.2)).2 := rfl
      omega
    have herr :
        (analyze_spelling tokenize sp
          (decode_bytes_with_fallback cp949 euckr f.2)).1 = [] := by
      unfold analyze_spelling at hmiss ⊢
      rw [List.length_eq_zero.mp hmiss]
      rfl
    have hd : (processFile tokenize cp949 euckr sp acc f).dedup = acc.dedup := by
      show mergeDedup acc.dedup
        (analyze_spelling tokenize sp (decode_bytes_with_fallback cp949 euckr f.2)).1 = acc.dedup
      rw [herr]
      rfl
    rw [ih _ h, hd]

theorem dictInsert_ne_nil (m : List (String × String)) (k v : String) :
    dictInsert m k v ≠ [] := by
  unfold dictInsert
  by_cases hl : (m.lookup k).isSome = true
  · rw [if_pos hl]
    intro hm
    rw [List.map_eq_nil_iff] at hm
    rw [hm] at hl
    simp [List.lookup] at hl
  · rw [if_neg hl]
    exact List.append_ne_nil_of_right_ne_nil _ (by simp)

theorem corrected_files_ne_nil_foldl (tokenize : String → List String)
    (cp949 euckr : List Byte → Option String) (sp : SpellChecker)
    (files : List (String × List Byte)) (acc : BatchResult)
    (h : acc.corrected_files ≠ []) :
    (files.foldl (processFile tokenize cp949 euckr sp) acc).corrected_files ≠ [] := by
  induction files generalizing acc with
  | nil => exact h
  | cons f rest ih =>
    rw [List.foldl_cons]
    exact ih _ (dictInsert_ne_nil _ _ _)

/-- C1 (amended): when the batch found zero unknown words, the
unique-error table and the CSV download are not produced, but —
contrary to "no downloadable artifacts" — the ZIP archive of corrected
texts is still produced whenever at least one file was uploaded (the
completion message likewise always appears, reporting zero errors). -/
theorem c1_no_findings_artifacts (tokenize : String → List String)
    (cp949 euckr : List Byte → Option String) (sp : SpellChecker)
    (files : List (String × List Byte))
    (h : (processBatch tokenize cp949 euckr sp files).total_miss_count = 0) :
    showsErrorTable (processBatch tokenize cp949 euckr sp files) = false ∧
      showsCSV (processBatch tokenize cp949 euckr sp files) = false ∧
      (files ≠ [] → showsZip (processBatch tokenize cp949 euckr sp files) = true) := by
  have hd : (processBatch tokenize cp949 euckr sp files).dedup = [] :=
    dedup_eq_of_total_zero tokenize cp949 euckr sp files _ h
  refine ⟨?_, ?_, ?_⟩
  · unfold showsErrorTable
    rw [hd]
    rfl
  · unfold showsCSV
    rw [hd]
    rfl
  · intro hne
    rcases files with _ | ⟨f, rest⟩
    · exact absurd rfl hne
    · have hbase : (processFile tokenize cp949 euckr sp ⟨[], [], 0⟩ f).corrected_files ≠ [] :=
        dictInsert_ne_nil [] f.1
          (correct_spelling tokenize sp (decode_bytes_with_fallback cp949 euckr f.2))
      have hnn := corrected_files_ne_nil_foldl tokenize cp949 euckr sp rest
        (processFile tokenize cp949 euckr sp ⟨[], [], 0⟩ f) hbase
      unfold showsZip processBatch
      rw [List.foldl_cons]
      simp [List.isEmpty_eq_true, hnn]

/-- C1 witness: a one-file batch with zero findings — no table, no CSV,
but the ZIP is produced. -/
theorem c1_no_findings_artifacts_witness :
    (processBatch tokWS (fun _ => none) (fun _ => none) ⟨fun _ => true, fun w => some w⟩
        [("b.txt", encodeAscii PyEncoding.utf8 "hi")]).total_miss_count = 0 ∧
      showsErrorTable (processBatch tokWS (fun _ => none) (fun _ => none)
        ⟨fun _ => true, fun w => some w⟩ [("b.txt", encodeAscii PyEncoding.utf8 "hi")]) = false ∧
      showsCSV (processBatch tokWS (fun _ => none) (fun _ => none)
        ⟨fun _ => true, fun w => some w⟩ [("b.txt", encodeAscii PyEncoding.utf8 "hi")]) = false ∧
      ([("b.txt", encodeAscii PyEncoding.utf8 "hi")] ≠ ([] : List (String × List Byte)) →
        showsZip (processBatch tokWS (fun _ => none) (fun _ => none)
          ⟨fun _ => true, fun w => some w⟩
          [("b.txt", encodeAscii PyEncoding.utf8 "hi")]) = true) :=
  ⟨by decide,
    c1_no_findings_artifacts tokWS (fun _ => none) (fun _ => none)
      ⟨fun _ => true, fun w => some w⟩ [("b.txt", encodeAscii PyEncoding.utf8 "hi")] (by decide)⟩

/-! ### C3 — partial-failure semantics -/

/-- C3 (counterexample): a two-file batch where the oracle raises while
analyzing the first file. The loop body has no handler, so the whole
batch aborts with the error: the second file is never processed, no
file is "recorded and skipped", and no results exist at all. -/
theorem c3_counterexample :
    processBatchE tokWS (fun _ => none) (fun _ => none)
        ⟨fun ws => if ws.contains "zzz" then Except.error "boom" else Except.ok [],
          fun _ => Except.ok none⟩
        [("a.txt", encodeAscii PyEncoding.utf8 "zzz"),
          ("b.txt", encodeAscii PyEncoding.utf8 "hi")] =
      Except.error "boom" :=
  rfl

/-- C3 (amended): an exception raised while analyzing a file halts the
whole batch: the error propagates out of the loop, no remaining file is
processed and no result state is produced. (A decode problem, by
contrast, cannot occur: the decoder never fails.) -/
theorem c3_batch_halts_on_error {ε : Type} (tokenize : String → List String)
    (cp949 euckr : List Byte → Option String) (sp : SpellCheckerE ε)
    (f : String × List Byte) (rest : List (String × List Byte)) (e : ε)
    (h : analyze_spellingE tokenize sp (decode_bytes_with_fallback cp949 euckr f.2) =
      Except.error e) :
    processBatchE tokenize cp949 euckr sp (f :: rest) = Except.error e := by
  unfold processBatchE
  rw [List.foldlM_cons]
  have hf : processFileE tokenize cp949 euckr sp ⟨[], [], 0⟩ f = Except.error e := by
    unfold processFileE
    rw [h]
    rfl
  rw [hf]
  rfl

/-- C3 witness: an oracle that always raises halts a two-file batch at
the first file. -/
theorem c3_batch_halts_on_error_witness :
    analyze_spellingE tokWS ⟨fun _ => Except.error "down", fun _ => Except.ok none⟩
        (decode_bytes_with_fallback (fun _ => none) (fun _ => none)
          (encodeAscii PyEncoding.utf8 "x")) =
      Except.error "down" ∧
      processBatchE tokWS (fun _ => none) (fun _ => none)
        ⟨fun _ => Except.error "down", fun _ => Except.ok none⟩
        [("a.txt", encodeAscii PyEncoding.utf8 "x"),
          ("b.txt", encodeAscii PyEncoding.utf8 "y")] =
      Except.error "down" :=
  ⟨rfl,
    c3_batch_halts_on_error tokWS (fun _ => none) (fun _ => none)
      ⟨fun _ => Except.error "down", fun _ => Except.ok none⟩
      ("a.txt", encodeAscii PyEncoding.utf8 "x")
      [("b.txt", encodeAscii PyEncoding.utf8 "y")] "down" rfl⟩

/-! ### C9 — ASCII round-trip through the decoder -/

theorem utf8Fuel_ascii (cs : List Char) (h : ∀ c ∈ cs, c.toNat < 128) :
    utf8Fuel (cs.map fun c => (⟨c.toNat % 256, Nat.mod_lt _ (by omega)⟩ : Byte)).length
        (cs.map fun c => (⟨c.toNat % 256, Nat.mod_lt _ (by omega)⟩ : Byte))
      = some cs := by
  induction cs with
  | nil => rfl
  | cons c rest ih =>
    have hc := h c (List.mem_cons_self c rest)
    have hmod : c.toNat % 256 = c.toNat := Nat.mod_eq_of_lt (by omega)
    simp only [List.map_cons, List.length_cons]
    unfold utf8Fuel
    rw [if_pos (by simpa [hmod] using hc)]
    rw [ih fun d hd => h d (List.mem_cons_of_mem c hd)]
    simp [hmod, Char.ofNat_toNat]

/-- C9: for every pure-ASCII string and every one of the four supported
encodings, decoding the encoded bytes with the Text Decoder returns the
string exactly (strict UTF-8, tried first, already succeeds on ASCII
bytes, so the result holds for arbitrary behaviour of the two Korean
codecs). -/
theorem c9_ascii_roundtrip (enc : PyEncoding) (cp949 euckr : List Byte → Option String)
    (s : String) (h : ∀ c ∈ s.data, c.toNat < 128) :
    decode_bytes_with_fallback cp949 euckr (encodeAscii enc s) = s := by
  have hdec : utf8Decode (encodeAscii enc s) = some s := by
    unfold utf8Decode encodeAscii
    rw [utf8Fuel_ascii s.data h]
    rfl
  unfold decode_bytes_with_fallback
  rw [hdec]

/-- C9 witness: `"hi"` round-trips through the cp949 encoding slot. -/
theorem c9_ascii_roundtrip_witness :
    decode_bytes_with_fallback (fun _ => none) (fun _ => none)
        (encodeAscii PyEncoding.cp949 "hi") = "hi" :=
  c9_ascii_roundtrip PyEncoding.cp949 (fun _ => none) (fun _ => none) "hi" (by decide)

/-! ### C10 — the decoder is total and the lossy fallback unreachable -/

/-- C10: strict latin-1 decoding succeeds on every byte sequence, so
the strict four-codec chain always returns a value and
`decode_bytes_with_fallback` always returns exactly that value: the
final `errors="replace"` line is unreachable, and the decoder never
introduces a replacement character through it. -/
theorem c10_decoder_total_no_fallback (cp949 euckr : List Byte → Option String)
    (data : List Byte) :
    (latin1Decode data).isSome = true ∧
      decodeStrictChain cp949 euckr data =
        some (decode_bytes_with_fallback cp949 euckr data) := by
  refine ⟨rfl, ?_⟩
  unfold decodeStrictChain decode_bytes_with_fallback
  cases utf8Decode data with
  | some s => rfl
  | none =>
    cases cp949 data with
    | some s => rfl
    | none =>
      cases euckr data with
      | some s => rfl
      | none => rfl

/-! ### C8 — idempotence of the Corrector on dictionary-known text -/

theorem toLower_comp_toLower : Char.toLower ∘ Char.toLower = Char.toLower :=
  funext char_toLower_toLower

theorem is_word_head_alpha {tok : String} (hw : is_word tok = true) :
    ∃ c cs, tok.data = c :: cs ∧ c.isAlpha = true := by
  rw [is_word, Bool.or_eq_true, Bool.and_eq_true] at hw
  rcases hw with hc | ⟨_, hd⟩
  · rcases ht : tok.data with _ | ⟨c, cs⟩
    · rw [ht] at hc
      exact absurd hc (by decide)
    · rw [ht] at hc
      simp only [isWordCore, Bool.and_eq_true] at hc
      exact ⟨c, cs, rfl, hc.1⟩
  · rcases hu : tok.data.dropLast with _ | ⟨c, cs⟩
    · rw [hu] at hd
      exact absurd hd (by decide)
    · rw [hu] at hd
      simp only [isWordCore, Bool.and_eq_true] at hd
      rcases List.eq_nil_or_concat' tok.data with hnil | ⟨u, a, hca⟩
      · rw [hnil] at hu
        simp at hu
      · rw [hca, List.dropLast_concat] at hu
        rw [hca, hu, List.cons_append]
        exact ⟨c, cs ++ [a], rfl, hd.1⟩

theorem pyLower_data (s : String) : (pyLower s).data = s.data.map Char.toLower := rfl

theorem pyLower_ne_empty {tok : String} (hw : is_word tok = true) :
    (pyLower tok).data ≠ [] := by
  obtain ⟨c, cs, hd, _⟩ := is_word_head_alpha hw
  rw [pyLower_data, hd]
  simp

theorem orElsePy_some_of_ne {s tok : String} (h : s.data ≠ []) :
    orElsePy (some s) tok = s := by
  show (if s.data = [] then tok else s) = s
  rw [if_neg h]

theorem pyLower_pyLower (s : String) : pyLower (pyLower s) = pyLower s := by
  apply String.ext
  rw [pyLower_data, pyLower_data, List.map_map, toLower_comp_toLower]

theorem pyLower_pyCapitalize_pyLower {tok : String} (hw : is_word tok = true) :
    pyLower (pyCapitalize (pyLower tok)) = pyLower tok := by
  obtain ⟨c, cs, hd, hca⟩ := is_word_head_alpha hw
  apply String.ext
  have h1 : (pyLower tok).data = c.toLower :: cs.map Char.toLower := by
    rw [pyLower_data, hd, List.map_cons]
  rw [pyLower_data]
  unfold pyCapitalize
  rw [h1]
  simp only [List.map_cons, List.map_map, toLower_comp_toLower]
  rw [char_toLower_toUpper_toLower_of_alpha hca]

theorem correctToken_idem (sp : SpellChecker) (tok : String)
    (hcorr : is_word tok = true → sp.correction (pyLower tok) = some (pyLower tok)) :
    correctToken sp (correctToken sp tok) = correctToken sp tok := by
  by_cases hw : is_word tok = true
  · obtain ⟨c, cs, hd, hca⟩ := is_word_head_alpha hw
    have hne := pyLower_ne_empty hw
    by_cases hup : pyIsUpper tok = true
    · have hft : correctToken sp tok = tok := by
        unfold correctToken
        rw [if_pos hw, if_pos hup]
      rw [hft]
      exact hft
    · have hcorr' := hcorr hw
      by_cases hfi : firstIsUpper tok = true
      · -- first pass yields pyCapitalize (pyLower tok)
        have hft : correctToken sp tok = pyCapitalize (pyLower tok) := by
          unfold correctToken
          rw [if_pos hw, if_neg hup, hcorr', orElsePy_some_of_ne hne, if_pos hfi]
        rw [hft]
        -- second pass on t = pyCapitalize (pyLower tok)
        by_cases hw2 : is_word (pyCapitalize (pyLower tok)) = true
        · by_cases hup2 : pyIsUpper (pyCapitalize (pyLower tok)) = true
          · unfold correctToken
            rw [if_pos hw2, if_pos hup2]
          · have hdata : (pyCapitalize (pyLower tok)).data =
                c.toLower.toUpper :: cs.map Char.toLower := by
              unfold pyCapitalize
              rw [pyLower_data, hd, List.map_cons]
              simp only [List.map_map, toLower_comp_toLower]
            have hfi2 : firstIsUpper (pyCapitalize (pyLower tok)) = true := by
              unfold firstIsUpper
              rw [hdata]
              exact char_isUpper_toUpper_of_lower (char_isLower_toLower_of_alpha hca)
            unfold correctToken
            rw [if_pos hw2, if_neg hup2, pyLower_pyCapitalize_pyLower hw, hcorr',
              orElsePy_some_of_ne hne, if_pos hfi2]
        · unfold correctToken
          rw [if_neg hw2]
      · -- first pass yields pyLower tok
        have hft : correctToken sp tok = pyLower tok := by
          unfold correctToken
          rw [if_pos hw, if_neg hup, hcorr', orElsePy_some_of_ne hne, if_neg hfi]
        rw [hft]
        by_cases hw2 : is_word (pyLower tok) = true
        · by_cases hup2 : pyIsUpper (pyLower tok) = true
          · unfold correctToken
            rw [if_pos hw2, if_pos hup2]
          · have hfi2 : firstIsUpper (pyLower tok) = false := by
              unfold firstIsUpper
              rw [pyLower_data, hd, List.map_cons]
              exact char_not_isUpper_toLower_of_alpha hca
            unfold correctToken
            rw [if_pos hw2, if_neg hup2, pyLower_pyLower, hcorr',
              orElsePy_some_of_ne hne, if_neg (by rw [hfi2]; exact Bool.false_ne_true)]
        · unfold correctToken
          rw [if_neg hw2]
  · have hft : correctToken sp tok = tok := by
      unfold correctToken
      rw [if_neg hw]
    rw [hft]
    exact hft

/-- C8: on a text whose word-shaped tokens are all dictionary-known
(the oracle's correction of each lower-cased token is the token
itself), the Corrector is idempotent. The external tokenizer is
abstract, so the one fact the real tokenizer supplies is taken as a
hypothesis: re-tokenizing the corrected output yields exactly the
corrected token sequence. -/
theorem c8_correct_spelling_idempotent (tokenize : String → List String)
    (sp : SpellChecker) (text : String)
    (h1 : ∀ w ∈ tokenize text, is_word w = true →
      sp.correction (pyLower w) = some (pyLower w))
    (h2 : tokenize (correct_spelling tokenize sp text) =
      (tokenize text).map (correctToken sp)) :
    correct_spelling tokenize sp (correct_spelling tokenize sp text) =
      correct_spelling tokenize sp text := by
  have h2' : tokenize (fixPunct (joinSpace ((tokenize text).map (correctToken sp)))) =
      (tokenize text).map (correctToken sp) := h2
  conv_lhs => unfold correct_spelling
  rw [h2']
  conv_rhs => unfold correct_spelling
  apply congrArg
  apply congrArg
  rw [List.map_map]
  apply List.map_congr_left
  intro w hw
  exact correctToken_idem sp w (h1 w hw)

/-- C8 witness: an all-knowing identity oracle on `"hello world"`. -/
theorem c8_correct_spelling_idempotent_witness :
    (∀ w ∈ tokWS "hello world", is_word w = true →
      (⟨fun _ => true, fun u => some u⟩ : SpellChecker).correction (pyLower w) =
        some (pyLower w)) ∧
      tokWS (correct_spelling tokWS ⟨fun _ => true, fun u => some u⟩ "hello world") =
        (tokWS "hello world").map (correctToken ⟨fun _ => true, fun u => some u⟩) ∧
      correct_spelling tokWS ⟨fun _ => true, fun u => some u⟩
          (correct_spelling tokWS ⟨fun _ => true, fun u => some u⟩ "hello world") =
        correct_spelling tokWS ⟨fun _ => true, fun u => some u⟩ "hello world" :=
  ⟨by decide, by decide,
    c8_correct_spelling_idempotent tokWS ⟨fun _ => true, fun u => some u⟩ "hello world"
      (by decide) (by decide)⟩
